import Mathlib

/-!
Verification development for the phogo terminal image browser.

The program under study is the final iteration of `main.go`: a Bubble Tea
session (`model.Update`) multiplexing key, timer-tick and render-completion
events over six modes, plus the catalog builder `getFiles`.

The embedding below translates the program's own code:
  * `getFiles` is split into its deterministic filter pipeline
    (`filteredItems`) and its sort.  `sort.Slice` is documented as an
    unstable comparison sort, so its exact output on comparator ties is
    implementation-defined; `getFilesOutput` captures exactly the
    postcondition the sort guarantees (a permutation of the filtered list
    with no adjacent inversion under the comparator `lessItem`), and
    `getFilesList` fixes one comparison sort consistent with the same
    comparator for use where `model.Update` reloads its list.
  * `update` translates `model.Update` case by case (key, tick and
    render-completion messages; the window-resize message is pure layout).
    The external collaborators (Bubble Tea widgets, the filesystem, the
    renderer, the clipboard) are modelled as explicit parameters or
    emitted effects, per the modelling notes on each definition.
-/

namespace Phogo

/-- Character-list containment, mirroring Go's `strings.Contains` on the
decoded character sequence. -/
def charsContains : List Char → List Char → Bool
  | [], needle => needle.isEmpty
  | c :: t, needle => needle.isPrefixOf (c :: t) || charsContains t needle

/-- `strings.Contains hay needle`. -/
def strContains (hay needle : String) : Bool :=
  charsContains hay.toList needle.toList

/-- `strings.ToLower` (ASCII case folding; the Go function is
Unicode-general but coincides with this on ASCII names). -/
def toLowerStr (s : String) : String := String.mk (s.toList.map Char.toLower)

/-- `strings.HasPrefix name "."`: the hidden-file test of `getFiles`. -/
def hasPrefixDot (name : String) : Bool := ['.'].isPrefixOf name.toList

/-- Byte-wise lexicographic string order, mirroring Go's `<` on strings
(UTF-8 byte order agrees with code-point order). -/
def charListLt : List Char → List Char → Bool
  | _, [] => false
  | [], _ :: _ => true
  | a :: as, b :: bs => if a < b then true else if b < a then false else charListLt as bs

/-- Go string `<`. -/
def strLt (a b : String) : Bool := charListLt a.toList b.toList

/-- `filepath.Ext`: the suffix starting at the final dot, `""` if none
(entry names contain no path separator). -/
def extOf (name : String) : String :=
  let rev := name.toList.reverse
  let pre := rev.takeWhile (fun c => c != '.')
  if pre.length == rev.length then ""
  else String.mk ('.' :: pre.reverse)

/-- The image-extension allow-list test of `getFiles`:
`ext := strings.ToLower(filepath.Ext(name)); ext == ".png" || ext == ".jpg" || ext == ".jpeg"`. -/
def isImageExt (name : String) : Bool :=
  let e := toLowerStr (extOf name)
  e == ".png" || e == ".jpg" || e == ".jpeg"

/-- One filesystem directory entry as `os.ReadDir` reports it (name,
directory flag, and the `Info()` size and Unix mtime read by `getFiles`). -/
structure RawEntry where
  name : String
  isDir : Bool
  size : Int
  modTime : Int
deriving DecidableEq, Repr

/-- The list item of the final iteration (`item` in main.go):
`title`, `fileName`, `isDir`, `size`, `modTime`. -/
structure Item where
  title : String
  fileName : String
  isDir : Bool
  size : Int
  modTime : Int
deriving DecidableEq, Repr

/-- The synthetic parent entry `item{title: "..", fileName: "..", isDir: true}`
(remaining fields zero-valued, as in Go). -/
def ddItem : Item :=
  { title := "..", fileName := "..", isDir := true, size := 0, modTime := 0 }

/-- The `item` literal built from a directory entry in the `getFiles` loop. -/
def entryToItem (e : RawEntry) : Item :=
  { title := e.name, fileName := e.name, isDir := e.isDir, size := e.size, modTime := e.modTime }

/-- The per-entry filter of the `getFiles` loop: hidden-file test, substring
test against the lower-cased query, and the type test (directories in
directory mode, allow-listed image extensions in image mode). -/
def keepEntry (dirsOnly : Bool) (searchQuery : String) (showHidden : Bool) (e : RawEntry) : Bool :=
  (showHidden || !(hasPrefixDot e.name)) &&
  ((searchQuery == "") || strContains (toLowerStr e.name) (toLowerStr searchQuery)) &&
  (if e.isDir then dirsOnly else (!dirsOnly && isImageExt e.name))

/-- The same filter with the substring test removed. Stated from the spec's
words ("when `query` is empty the substring filter excludes nothing") for
comparison with `keepEntry` at the empty query. -/
def keepEntryNoQuery (dirsOnly : Bool) (showHidden : Bool) (e : RawEntry) : Bool :=
  (showHidden || !(hasPrefixDot e.name)) &&
  (if e.isDir then dirsOnly else (!dirsOnly && isImageExt e.name))

/-- The pre-sort item list built by `getFiles`: the synthetic `..` entry is
appended first whenever `dirsOnly` (the final iteration performs no
filesystem-root check), then the surviving entries in listing order. -/
def filteredItems (dirsOnly : Bool) (searchQuery : String) (showHidden : Bool)
    (entries : List RawEntry) : List Item :=
  (if dirsOnly then [ddItem] else []) ++
    (entries.filter (keepEntry dirsOnly searchQuery showHidden)).map entryToItem

/-- `filteredItems` with the substring filter removed (spec-side pipeline). -/
def filteredItemsNoQuery (dirsOnly : Bool) (showHidden : Bool)
    (entries : List RawEntry) : List Item :=
  (if dirsOnly then [ddItem] else []) ++
    (entries.filter (keepEntryNoQuery dirsOnly showHidden)).map entryToItem

/-- `SortName` -/
def SortName : Nat := 0
/-- `SortSize` -/
def SortSize : Nat := 1
/-- `SortDate` -/
def SortDate : Nat := 2

/-- The comparator closure passed to `sort.Slice` by `getFiles`:
`..` sorts before everything; then size descending, mtime descending, or
case-insensitive name ascending depending on `sortMode` (any other value
falls to the name default, as the Go `switch` does). -/
def lessItem (sortMode : Nat) (a b : Item) : Bool :=
  if a.title == ".." then true
  else if b.title == ".." then false
  else if sortMode == SortSize then decide (a.size > b.size)
  else if sortMode == SortDate then decide (a.modTime > b.modTime)
  else strLt (toLowerStr a.title) (toLowerStr b.title)

/-- All adjacent pairs of a list satisfy the Bool relation `p`. -/
def adjPairs (p : Item → Item → Bool) : List Item → Bool
  | [] => true
  | [_] => true
  | a :: b :: t => p a b && adjPairs p (b :: t)

/-- No adjacent inversion under `lessItem`: the postcondition `sort.Slice`
establishes for its comparator. -/
def noInversion (sortMode : Nat) (out : List Item) : Prop :=
  adjPairs (fun a b => !(lessItem sortMode b a)) out = true

/-- The filesystem as `getFiles` and `model.Update` consume it:
`readDir` is `os.ReadDir` (`none` = error), `isDirPath` is the
`os.Stat(p); err == nil && info.IsDir()` test. -/
structure Fs where
  readDir : String → Option (List RawEntry)
  isDirPath : String → Bool

/-- The contract of `getFiles dir dirsOnly searchQuery showHidden sortMode`:
`os.ReadDir` errors are discarded (`entries, _ :=`), leaving an empty
listing; the output is the filtered list rearranged by `sort.Slice`, i.e.
some permutation with no adjacent inversion under `lessItem`.  (The sort is
unstable, so the order of comparator ties is not determined by the code.) -/
def getFilesOutput (fs : Fs) (dir : String) (dirsOnly : Bool) (searchQuery : String)
    (showHidden : Bool) (sortMode : Nat) (out : List Item) : Prop :=
  out.Perm (filteredItems dirsOnly searchQuery showHidden ((fs.readDir dir).getD [])) ∧
    noInversion sortMode out

instance (sortMode : Nat) (out : List Item) : Decidable (noInversion sortMode out) := by
  unfold noInversion; infer_instance

instance (fs : Fs) (dir : String) (dirsOnly : Bool) (searchQuery : String)
    (showHidden : Bool) (sortMode : Nat) (out : List Item) :
    Decidable (getFilesOutput fs dir dirsOnly searchQuery showHidden sortMode out) := by
  unfold getFilesOutput; infer_instance

/-- Ordered insertion under `lessItem` (helper for `sortItems`). -/
def insertLess (sortMode : Nat) (a : Item) : List Item → List Item
  | [] => [a]
  | b :: bs => if lessItem sortMode a b then a :: b :: bs else b :: insertLess sortMode a bs

/-- One comparison sort consistent with `lessItem`; stands in for
`sort.Slice` where `model.Update` needs a concrete reloaded list. -/
def sortItems (sortMode : Nat) : List Item → List Item
  | [] => []
  | a :: as => insertLess sortMode a (sortItems sortMode as)

/-- Executable `getFiles` (filter pipeline plus one admissible sort). -/
def getFilesList (fs : Fs) (dir : String) (dirsOnly : Bool) (searchQuery : String)
    (showHidden : Bool) (sortMode : Nat) : List Item :=
  sortItems sortMode (filteredItems dirsOnly searchQuery showHidden ((fs.readDir dir).getD []))

/-- `sessionState` of the final iteration. -/
inductive SState
  | browsing
  | viewingImage
  | dirBrowsing
  | searching
  | confirmDelete
  | renaming
deriving DecidableEq, Repr

/-- `FilterColor` -/
def FilterColor : String := "Color"
/-- `FilterGrayscale` -/
def FilterGrayscale : String := "Grayscale"
/-- `FilterInverted` -/
def FilterInverted : String := "Inverted"
/-- `FilterDuotone` -/
def FilterDuotone : String := "Duotone"

/-- The `model` struct of the final iteration.  The embedded widgets are
reduced to the data the program reads from them: the list to its items and
cursor index (`m.list.Items()`, `m.list.Index()`), the viewport to its
displayed content and dimensions, the two text inputs to their values.
`initialImagePath` is consumed only by `Init`/the first window-size message
(startup layout) and is omitted. -/
structure Model where
  state : SState
  listItems : List Item
  listIndex : Nat
  viewportContent : String
  viewportWidth : Int
  viewportHeight : Int
  searchInputValue : String
  renameInputValue : String
  currentDir : String
  dirBrowserPath : String
  searchQuery : String
  showHidden : Bool
  statusMsg : String
  imgContent : String
  isRendering : Bool
  isSlideshow : Bool
  prevDirState : SState
  filterMode : String
  sortMode : Nat
deriving DecidableEq, Repr

/-- Effects a step of `model.Update` emits: Bubble Tea commands
(`tea.Quit`, `renderImageCmd`, `tick()`) and the immediate external
side effects (clipboard write, `os.Rename`, `os.Remove`).  A render
request carries exactly the data `renderImageCmd` closes over — path,
width, height and render mode; there is no sequence number, and the
completion message (`Msg.rendered`) carries only the resulting text. -/
inductive Cmd
  | quit
  | render (path : String) (w h : Int) (mode : String)
  | tickCmd
  | clip (s : String)
  | fsRename (oldPath newPath : String)
  | fsRemove (path : String)
deriving DecidableEq, Repr

/-- The messages `model.Update` consumes: key presses, the render
completion `imageRenderedMsg` (a bare string), and the slideshow
`tickMsg`.  `tea.WindowSizeMsg` is pure layout and not modelled. -/
inductive Msg
  | key (k : String)
  | rendered (s : String)
  | tick
deriving DecidableEq, Repr

/-- `m.list.SelectedItem()`: the item under the cursor, or nothing when the
index is out of range (in particular when the list is empty). -/
def selectedItem (m : Model) : Option Item := m.listItems.get? m.listIndex

/-- Model of the external Bubble Tea list widget's key handling, restricted
to the cursor movement the session logic depends on (`j`/`k`/arrows as
bound by `initialModel`).  Paging and the widget's built-in bindings live
in the external library, outside this repository's code, and are not
modelled. -/
def listWidgetUpdate (m : Model) (k : String) : Model :=
  if k == "down" || k == "j" then
    if m.listIndex + 1 < m.listItems.length then { m with listIndex := m.listIndex + 1 } else m
  else if k == "up" || k == "k" then
    if 0 < m.listIndex then { m with listIndex := m.listIndex - 1 } else m
  else m

/-- Model of the external text-input widget: printable single-character
keys append, backspace deletes, everything else is ignored. -/
def textInputUpdate (v : String) (k : String) : String :=
  if k == "backspace" then String.mk v.toList.dropLast
  else if k.length == 1 then v ++ k
  else v

/-- `filepath.Join dir name` (simplified to separator concatenation; the
cleaning Go performs does not affect the properties studied here). -/
def joinPath (dir name : String) : String := dir ++ "/" ++ name

/-- `filepath.Dir`: drop the last path component (used for the `..`
navigation in directory browsing). -/
def parentDir (p : String) : String :=
  let dropped := p.toList.reverse.dropWhile (fun c => c != '/')
  match dropped with
  | [] => "."
  | ['/'] => "/"
  | _ :: rest => String.mk rest.reverse

/-- `(m *model) reloadImageList()`. -/
def reloadImageList (fs : Fs) (m : Model) : Model :=
  { m with listItems := getFilesList fs m.currentDir false m.searchQuery m.showHidden m.sortMode }

/-- `(m *model) reloadDirList()`. -/
def reloadDirList (fs : Fs) (m : Model) : Model :=
  { m with listItems := getFilesList fs m.dirBrowserPath true m.searchQuery m.showHidden m.sortMode }

/-- The `imageRenderedMsg` case of `model.Update` (src/main.go 419-422):
unconditionally clear the rendering flag and install the completion's
payload as the displayed content.  The message carries no sequence
number, so nothing distinguishes a stale completion from a current one. -/
def updateRendered (m : Model) (s : String) : Model × List Cmd :=
  ({ m with isRendering := false, imgContent := s, viewportContent := s }, [])

/-- The `tickMsg` case of `model.Update` (src/main.go 424-436): while the
slideshow runs in the viewer, advance the cursor circularly and issue the
next tick plus a render request for the new selection. -/
def updateTick (_fs : Fs) (m : Model) : Model × List Cmd :=
  if m.isSlideshow && m.state == .viewingImage then
    let m1 := if m.listIndex == m.listItems.length - 1 then { m with listIndex := 0 }
              else { m with listIndex := m.listIndex + 1 }
    match selectedItem m1 with
    | some itm => (m1, [Cmd.tickCmd,
        Cmd.render (joinPath m1.currentDir itm.fileName) m1.viewportWidth m1.viewportHeight m1.filterMode])
    | none => (m1, [])
  else (m, [])

/-- The `stateBrowsing` arm of the key switch (src/main.go 444-475).
Total: every selected-item lookup here is guarded by the `, ok` idiom.
Non-returning cases fall through to `m.list.Update(msg)`. -/
def updateKeyBrowsing (fs : Fs) (m : Model) (k : String) : Model × List Cmd :=
  if k == "q" then (m, [Cmd.quit])
  else if k == "enter" then
    match selectedItem m with
    | some itm =>
      if itm.isDir then (listWidgetUpdate m k, [])
      else ({ m with state := .viewingImage, isRendering := true },
        [Cmd.render (joinPath m.currentDir itm.fileName) m.viewportWidth m.viewportHeight m.filterMode])
    | none => (listWidgetUpdate m k, [])
  else if k == "P" then
    match selectedItem m with
    | some itm =>
      if itm.isDir then (listWidgetUpdate m k, [])
      else ({ m with isSlideshow := true, state := .viewingImage, isRendering := true },
        [Cmd.tickCmd,
         Cmd.render (joinPath m.currentDir itm.fileName) m.viewportWidth m.viewportHeight m.filterMode])
    | none => (listWidgetUpdate m k, [])
  else if k == "d" then
    (listWidgetUpdate (reloadDirList fs { m with state := .dirBrowsing }) k, [])
  else if k == "x" then
    (listWidgetUpdate { m with state := .confirmDelete } k, [])
  else if k == "r" then
    match selectedItem m with
    | some itm =>
      (listWidgetUpdate { m with state := .renaming, renameInputValue := itm.fileName } k, [])
    | none => (listWidgetUpdate m k, [])
  else if k == "s" then
    (listWidgetUpdate (reloadImageList fs { m with sortMode := (m.sortMode + 1) % 3 }) k, [])
  else if k == "y" then
    match selectedItem m with
    | some itm =>
      (listWidgetUpdate { m with statusMsg := "Path Copied!" } k,
        [Cmd.clip (joinPath m.currentDir itm.fileName)])
    | none => (listWidgetUpdate m k, [])
  else if k == "h" then
    (listWidgetUpdate (reloadImageList fs { m with showHidden := !m.showHidden }) k, [])
  else if k == "/" then
    (listWidgetUpdate { m with state := .searching, prevDirState := .browsing } k, [])
  else (listWidgetUpdate m k, [])

/-- The `stateViewingImage` arm (src/main.go 477-487).  The render-mode
digit handlers dereference `m.list.SelectedItem().(item)` without the
`, ok` guard: `none` models that panic.  Other keys fall through to the
viewport widget (scrolling only, modelled as the identity). -/
def updateKeyViewing (m : Model) (k : String) : Option (Model × List Cmd) :=
  if k == "esc" || k == "q" then
    some ({ m with state := .browsing, statusMsg := "" }, [])
  else if k == "1" || k == "2" || k == "3" || k == "4" then
    let mode := if k == "1" then FilterColor else if k == "2" then FilterGrayscale
                else if k == "3" then FilterInverted else FilterDuotone
    match selectedItem m with
    | some itm =>
      some ({ m with filterMode := mode, isRendering := true },
        [Cmd.render (joinPath m.currentDir itm.fileName) m.viewportWidth m.viewportHeight mode])
    | none => none
  else some (m, [])

/-- The `stateDirBrowsing` arm (src/main.go 489-501).  Total (the enter
handler is guarded).  Note the asymmetry the claims probe: `d` commits
`dirBrowserPath` into `currentDir` and reloads the image list, while
`esc` only switches the state back. -/
def updateKeyDirBrowsing (fs : Fs) (m : Model) (k : String) : Model × List Cmd :=
  if k == "enter" then
    match selectedItem m with
    | some itm =>
      let newP := if itm.fileName == ".." then parentDir m.dirBrowserPath
                  else joinPath m.dirBrowserPath itm.fileName
      if fs.isDirPath newP then
        (listWidgetUpdate (reloadDirList fs { m with dirBrowserPath := newP }) k, [])
      else (listWidgetUpdate m k, [])
    | none => (listWidgetUpdate m k, [])
  else if k == "d" then
    (listWidgetUpdate
      (reloadImageList fs { m with currentDir := m.dirBrowserPath, state := .browsing }) k, [])
  else if k == "h" then
    (listWidgetUpdate (reloadDirList fs { m with showHidden := !m.showHidden }) k, [])
  else if k == "esc" then
    (listWidgetUpdate { m with state := .browsing } k, [])
  else (listWidgetUpdate m k, [])

/-- The `stateSearching` arm (src/main.go 503-508): enter commits the
input value as the search query and reloads the catalog of the remembered
mode; esc returns without committing; all keys also reach the text
input widget. -/
def updateKeySearching (fs : Fs) (m : Model) (k : String) : Model × List Cmd :=
  if k == "enter" then
    let m1 := { m with searchQuery := m.searchInputValue, state := m.prevDirState }
    let m2 := if m1.state == .dirBrowsing then reloadDirList fs m1 else reloadImageList fs m1
    ({ m2 with searchInputValue := textInputUpdate m2.searchInputValue k }, [])
  else if k == "esc" then
    let v := textInputUpdate m.searchInputValue k
    ({ m with state := m.prevDirState, searchInputValue := v }, [])
  else ({ m with searchInputValue := textInputUpdate m.searchInputValue k }, [])

/-- The `stateRenaming` arm (src/main.go 510-515).  The confirm handler
dereferences the selected item unguarded (`none` models the panic),
issues the rename and reloads. -/
def updateKeyRenaming (fs : Fs) (m : Model) (k : String) : Option (Model × List Cmd) :=
  if k == "enter" then
    match selectedItem m with
    | some itm =>
      let m1 := reloadImageList fs { m with state := .browsing }
      some ({ m1 with renameInputValue := textInputUpdate m.renameInputValue k },
        [Cmd.fsRename (joinPath m.currentDir itm.fileName)
          (joinPath m.currentDir m.renameInputValue)])
    | none => none
  else if k == "esc" then
    let v := textInputUpdate m.renameInputValue k
    some ({ m with state := .browsing, renameInputValue := v }, [])
  else some ({ m with renameInputValue := textInputUpdate m.renameInputValue k }, [])

/-- The `stateConfirmDelete` arm (src/main.go 517-519).  `y` dereferences
the selected item unguarded (`none` models the panic), removes the file
and reloads; every key then lands in `Browsing`. -/
def updateKeyConfirmDelete (fs : Fs) (m : Model) (k : String) : Option (Model × List Cmd) :=
  if k == "y" then
    match selectedItem m with
    | some itm =>
      some (reloadImageList fs { m with state := .browsing },
        [Cmd.fsRemove (joinPath m.currentDir itm.fileName)])
    | none => none
  else some ({ m with state := .browsing }, [])

/-- The `tea.KeyMsg` case of `model.Update` (src/main.go 438-520): the
force-quit check, then the slideshow swallow, then the mode switch. -/
def updateKey (fs : Fs) (m : Model) (k : String) : Option (Model × List Cmd) :=
  if k == "ctrl+c" then some (m, [Cmd.quit])
  else if m.isSlideshow then
    some ({ m with isSlideshow := false, statusMsg := "Slideshow Stopped" }, [])
  else
    match m.state with
    | .browsing => some (updateKeyBrowsing fs m k)
    | .viewingImage => updateKeyViewing m k
    | .dirBrowsing => some (updateKeyDirBrowsing fs m k)
    | .searching => some (updateKeySearching fs m k)
    | .renaming => updateKeyRenaming fs m k
    | .confirmDelete => updateKeyConfirmDelete fs m k

/-- `model.Update` of the final iteration: dispatch on the message type
(`tea.WindowSizeMsg`, pure layout, is not modelled). -/
def update (fs : Fs) (m : Model) (msg : Msg) : Option (Model × List Cmd) :=
  match msg with
  | .rendered s => some (updateRendered m s)
  | .tick => some (updateTick fs m)
  | .key k => updateKey fs m k

/-- Run `update` over a message sequence, discarding emitted commands. -/
def steps (fs : Fs) : Model → List Msg → Option Model
  | m, [] => some m
  | m, msg :: rest =>
    match update fs m msg with
    | none => none
    | some (m1, _) => steps fs m1 rest

/-- Run `update` over a message sequence, collecting emitted commands in
event order. -/
def stepsTrace (fs : Fs) : Model → List Msg → Option (Model × List Cmd)
  | m, [] => some (m, [])
  | m, msg :: rest =>
    match update fs m msg with
    | none => none
    | some (m1, cs) =>
      match stepsTrace fs m1 rest with
      | none => none
      | some (mf, csRest) => some (mf, cs ++ csRest)

/-! ## Spec-side order predicates (stated from the claims' words, for
comparison with the behaviour of the code-side definitions above) -/

/-- The parent entry sorts first: no element of the tail is titled `..`. -/
def parentFirst (out : List Item) : Prop := ∀ it ∈ out.tail, it.title ≠ ".."

/-- One adjacent pair of the ordering claimed by C4, including its
tie-breaking clause: after `..`, size (resp. mtime) strictly greater, or
equal with case-insensitive names ascending; names ascending under the
name key. -/
def specPairC4 (sortMode : Nat) (a b : Item) : Bool :=
  if a.title == ".." then true
  else if b.title == ".." then false
  else if sortMode == SortSize then
    decide (b.size < a.size) || ((a.size == b.size) && !(strLt (toLowerStr b.title) (toLowerStr a.title)))
  else if sortMode == SortDate then
    decide (b.modTime < a.modTime) || ((a.modTime == b.modTime) && !(strLt (toLowerStr b.title) (toLowerStr a.title)))
  else !(strLt (toLowerStr b.title) (toLowerStr a.title))

/-- The full ordering claimed by C4 (with tie-breaking by name). -/
def claimedOrderC4 (sortMode : Nat) (out : List Item) : Prop :=
  adjPairs (specPairC4 sortMode) out = true

/-- One adjacent pair of the ordering without the tie-breaking clause:
size non-increasing, mtime non-increasing, or case-insensitive name
non-decreasing, with `..` allowed only up front. -/
def specPairMono (sortMode : Nat) (a b : Item) : Bool :=
  (a.title == "..") ||
  ((!(b.title == "..")) &&
    (if sortMode == SortSize then decide (b.size ≤ a.size)
     else if sortMode == SortDate then decide (b.modTime ≤ a.modTime)
     else !(strLt (toLowerStr b.title) (toLowerStr a.title))))

/-- The monotone ordering (no tie-breaking clause). -/
def monotoneOrder (sortMode : Nat) (out : List Item) : Prop :=
  adjPairs (specPairMono sortMode) out = true

instance (sortMode : Nat) (out : List Item) : Decidable (claimedOrderC4 sortMode out) := by
  unfold claimedOrderC4; infer_instance

instance (sortMode : Nat) (out : List Item) : Decidable (monotoneOrder sortMode out) := by
  unfold monotoneOrder; infer_instance

instance (out : List Item) : Decidable (parentFirst out) := by
  unfold parentFirst; infer_instance

/-! ## Concrete fixtures used by witnesses and counterexamples -/

/-- A filesystem whose every directory is empty. -/
def fs0 : Fs := { readDir := fun _ => some [], isDirPath := fun _ => false }

/-- A filesystem on which every directory listing fails. -/
def fsFail : Fs := { readDir := fun _ => none, isDirPath := fun _ => false }

/-- `a.png`, 100 bytes, mtime 5. -/
def entA : RawEntry := { name := "a.png", isDir := false, size := 100, modTime := 5 }

/-- `b.png`, 100 bytes, mtime 5 (a size and mtime tie with `entA`). -/
def entB : RawEntry := { name := "b.png", isDir := false, size := 100, modTime := 5 }

/-- `.h.png`, a hidden image. -/
def entH : RawEntry := { name := ".h.png", isDir := false, size := 1, modTime := 1 }

/-- `entA` as a list item. -/
def itemA : Item := entryToItem entA

/-- `entB` as a list item. -/
def itemB : Item := entryToItem entB

/-- `entH` as a list item. -/
def itemH : Item := entryToItem entH

/-- A filesystem listing `a.png` and `b.png` everywhere. -/
def fsAB : Fs := { readDir := fun _ => some [entA, entB], isDirPath := fun _ => false }

/-- A filesystem listing `b.png` and the hidden `.h.png` everywhere. -/
def fsBH : Fs := { readDir := fun _ => some [entB, entH], isDirPath := fun _ => false }

/-- A session viewing `a.png` out of a one-image catalog. -/
def imgIt : Item := { title := "a.png", fileName := "a.png", isDir := false, size := 10, modTime := 1 }

/-- A concrete session in `ViewingImage` over the one-image catalog
`[imgIt]` of directory `/pics`. -/
def mView : Model :=
  { state := .viewingImage, listItems := [imgIt], listIndex := 0, viewportContent := "INIT",
    viewportWidth := 80, viewportHeight := 40, searchInputValue := "", renameInputValue := "",
    currentDir := "/pics", dirBrowserPath := "/pics", searchQuery := "", showHidden := false,
    statusMsg := "", imgContent := "INIT", isRendering := false, isSlideshow := false,
    prevDirState := .browsing, filterMode := FilterColor, sortMode := SortName }

/-- A concrete session in `DirectoryBrowsing`, exploring `/b` while the
working directory is still `/a`. -/
def mDirB : Model :=
  { mView with state := .dirBrowsing, currentDir := "/a", dirBrowserPath := "/b", statusMsg := "old status" }

/-- A concrete session with the slideshow running. -/
def mSlide : Model := { mView with isSlideshow := true, statusMsg := "x" }

/-- `mView` with an empty catalog. -/
def mEmptyView : Model := { mView with listItems := [] }

/-! ## Helper lemmas -/

/-- A pointwise implication between Bool relations lifts to `adjPairs`. -/
theorem adjPairs_imp {p q : Item → Item → Bool} (h : ∀ a b, p a b = true → q a b = true) :
    ∀ l : List Item, adjPairs p l = true → adjPairs q l = true
  | [] => by simp [adjPairs]
  | [a] => by simp [adjPairs]
  | a :: b :: t => by
    simp only [adjPairs, Bool.and_eq_true]
    intro hh
    exact ⟨h a b hh.1, adjPairs_imp h (b :: t) hh.2⟩

/-- The comparator always puts a `..`-titled item first. -/
theorem lessItem_of_dd {sortMode : Nat} {a b : Item} (h : a.title = "..") :
    lessItem sortMode a b = true := by
  simp [lessItem, h]

/-- In a list with no adjacent inversion under `lessItem`, no tail element
is titled `..` (it would invert against its predecessor). -/
theorem adjPairs_no_dd {sortMode : Nat} :
    ∀ l : List Item, adjPairs (fun a b => !(lessItem sortMode b a)) l = true →
      ∀ it ∈ l.tail, it.title ≠ ".."
  | [] => by simp
  | [a] => by simp
  | a :: b :: t => by
    simp only [adjPairs, Bool.and_eq_true]
    intro hh it hit hdd
    rcases List.mem_cons.mp hit with h1 | h2
    · subst h1
      have := @lessItem_of_dd sortMode it a hdd
      simp [this] at hh
    · exact adjPairs_no_dd (b :: t) hh.2 it h2 hdd

/-- A non-inverted adjacent pair satisfies the monotone spec-side pair. -/
theorem lessItem_false_mono {sortMode : Nat} {a b : Item} (h : lessItem sortMode b a = false) :
    specPairMono sortMode a b = true := by
  unfold lessItem at h
  unfold specPairMono
  by_cases hb : (b.title == "..") = true
  · simp [hb] at h
  · by_cases ha : (a.title == "..") = true
    · simp [ha]
    · by_cases hs : (sortMode == SortSize) = true
      · simp only [Bool.not_eq_true] at hb ha
        simp [hb, ha, hs] at h ⊢
        omega
      · by_cases hd : (sortMode == SortDate) = true
        · simp only [Bool.not_eq_true] at hb ha
          simp [hb, ha, hs, hd] at h ⊢
          omega
        · simp only [Bool.not_eq_true] at hb ha
          simp [hb, ha, hs, hd] at h ⊢
          exact h

/-- Membership in the filtered pipeline output: the synthetic `..` entry
(in directory mode) or an entry of the listing passing `keepEntry`. -/
theorem mem_filteredItems {dirsOnly : Bool} {q : String} {sh : Bool} {es : List RawEntry}
    {it : Item} :
    it ∈ filteredItems dirsOnly q sh es ↔
      ((dirsOnly = true ∧ it = ddItem) ∨
       ∃ e, e ∈ es ∧ keepEntry dirsOnly q sh e = true ∧ it = entryToItem e) := by
  unfold filteredItems
  cases dirsOnly <;> simp [List.mem_filter, List.mem_map] <;> aesop

/-- With an empty query the per-entry filter agrees with the pipeline that
has no substring test. -/
theorem keepEntry_empty_query (d sh : Bool) (e : RawEntry) :
    keepEntry d "" sh e = keepEntryNoQuery d sh e := by
  simp [keepEntry, keepEntryNoQuery]

/-- With an empty query the filter pipeline excludes nothing beyond the
hidden-file and type tests. -/
theorem filteredItems_empty_query (d sh : Bool) (es : List RawEntry) :
    filteredItems d "" sh es = filteredItemsNoQuery d sh es := by
  unfold filteredItems filteredItemsNoQuery
  congr 1
  congr 1
  apply List.filter_congr
  intro e _
  exact keepEntry_empty_query d sh e

/-- The render-mode digit handlers are total once the selected-item lookup
succeeds. -/
theorem updateKeyViewing_isSome {m : Model} {itm : Item}
    (h : selectedItem m = some itm) (k : String) :
    (updateKeyViewing m k).isSome = true := by
  unfold updateKeyViewing
  rw [h]
  (repeat' split) <;> first | rfl | simp_all

/-- The rename handler is total once the selected-item lookup succeeds. -/
theorem updateKeyRenaming_isSome (fs : Fs) {m : Model} {itm : Item}
    (h : selectedItem m = some itm) (k : String) :
    (updateKeyRenaming fs m k).isSome = true := by
  unfold updateKeyRenaming
  rw [h]
  (repeat' split) <;> first | rfl | simp_all

/-- The delete-confirm handler is total once the selected-item lookup
succeeds. -/
theorem updateKeyConfirmDelete_isSome (fs : Fs) {m : Model} {itm : Item}
    (h : selectedItem m = some itm) (k : String) :
    (updateKeyConfirmDelete fs m k).isSome = true := by
  unfold updateKeyConfirmDelete
  rw [h]
  (repeat' split) <;> first | rfl | simp_all

/-! ## C1 — stale render completions -/

/-- C1 counterexample: the claimed event order (issue the grayscale render
request, issue the inverted one, apply the inverted completion, then apply
the late grayscale completion) ends with the stale first request's payload
displayed, not the newer one's; the two emitted render requests carry only
path, dimensions and mode — no sequence number exists to drop the stale
completion. -/
theorem c1_stale_completion_counterexample :
    (stepsTrace fs0 mView [.key "2", .key "3", .rendered "RESULT-3", .rendered "RESULT-2"]).map
        (fun p => (p.1.viewportContent, p.2)) =
      some ("RESULT-2",
        [Cmd.render "/pics/a.png" 80 40 FilterGrayscale,
         Cmd.render "/pics/a.png" 80 40 FilterInverted]) ∧
    ("RESULT-2" : String) ≠ "RESULT-3" := by decide

/-- C1 (amended): requests carry no sequence number and completions are
applied unconditionally in arrival order, so in the order (issue N, issue
N+1, completion N+1, completion N) the displayed content equals the
last-arrived completion — request N's result, not N+1's. -/
theorem c1_last_arrival_wins (fs : Fs) (m : Model) (itm : Item) (sA sB : String)
    (hst : m.state = .viewingImage) (hsl : m.isSlideshow = false)
    (hsel : selectedItem m = some itm) :
    (steps fs m [.key "2", .key "3", .rendered sB, .rendered sA]).map Model.viewportContent =
      some sA := by
  have hsel2 : m.listItems[m.listIndex]? = some itm := by
    simpa [selectedItem, List.get?_eq_getElem?] using hsel
  simp [steps, update, updateKey, updateKeyViewing, updateRendered, selectedItem, hst, hsl, hsel2]

/-- C1 witness: the amended statement at the concrete viewer session. -/
theorem c1_last_arrival_wins_witness :
    mView.state = SState.viewingImage ∧ mView.isSlideshow = false ∧
      selectedItem mView = some imgIt ∧
      (steps fs0 mView [.key "2", .key "3", .rendered "RESULT-3", .rendered "RESULT-2"]).map
          Model.viewportContent = some "RESULT-2" :=
  ⟨rfl, rfl, rfl, c1_last_arrival_wins fs0 mView imgIt "RESULT-2" "RESULT-3" rfl rfl rfl⟩

/-! ## C2 — quit handling -/

/-- C2 counterexample: in `DirectoryBrowsing` a plain `q` neither quits nor
returns to `Browsing` with a cleared status — the handler has no `q` case,
so the session stays in `DirectoryBrowsing` with its status message
intact. -/
theorem c2_quit_counterexample :
    (update fs0 mDirB (.key "q")).map (fun p => (p.1.state, p.1.statusMsg)) =
        some (SState.dirBrowsing, "old status") ∧
      SState.dirBrowsing ≠ SState.browsing ∧ ("old status" : String) ≠ "" := by decide

/-- C2 (amended): `ctrl+c` quits from every state; `q` quits only in
`Browsing`; in `ViewingImage` it returns to `Browsing` clearing the
status; in `ConfirmingDelete` it returns to `Browsing` without clearing
the status; in `DirectoryBrowsing`, `Searching` and `Renaming` the
mode-specific handler performs no transition on `q`. -/
theorem c2_quit_behavior (fs : Fs) (m : Model) :
    update fs m (.key "ctrl+c") = some (m, [Cmd.quit]) ∧
    (m.isSlideshow = false →
      ((m.state = .browsing → update fs m (.key "q") = some (m, [Cmd.quit])) ∧
       (m.state = .viewingImage →
         update fs m (.key "q") = some ({ m with state := .browsing, statusMsg := "" }, [])) ∧
       (m.state = .confirmDelete →
         update fs m (.key "q") = some ({ m with state := .browsing }, [])) ∧
       (m.state = .dirBrowsing →
         (update fs m (.key "q")).map (fun p => p.1.state) = some SState.dirBrowsing) ∧
       (m.state = .searching →
         (update fs m (.key "q")).map (fun p => p.1.state) = some SState.searching) ∧
       (m.state = .renaming →
         (update fs m (.key "q")).map (fun p => p.1.state) = some SState.renaming))) := by
  refine ⟨by simp [update, updateKey], fun hsl => ⟨?_, ?_, ?_, ?_, ?_, ?_⟩⟩ <;> intro hst <;>
    simp [update, updateKey, updateKeyBrowsing, updateKeyViewing, updateKeyDirBrowsing,
      updateKeySearching, updateKeyRenaming, updateKeyConfirmDelete, hsl, hst,
      listWidgetUpdate, textInputUpdate]

/-- C2 witness: the amended statement's directory-browsing clause at the
concrete session. -/
theorem c2_quit_behavior_witness :
    mDirB.isSlideshow = false ∧ mDirB.state = SState.dirBrowsing ∧
      (update fs0 mDirB (.key "q")).map (fun p => p.1.state) = some SState.dirBrowsing :=
  ⟨rfl, rfl, ((c2_quit_behavior fs0 mDirB).2 rfl).2.2.2.1 rfl⟩

/-! ## C3 — any key stops the slideshow -/

/-- C3: while the slideshow is active, any key other than `ctrl+c` only
clears the slideshow flag and sets the status message — every other
session field is unchanged and no command (in particular no render
request) is emitted. -/
theorem c3_slideshow_swallow (fs : Fs) (m : Model) (k : String)
    (hk : k ≠ "ctrl+c") (hs : m.isSlideshow = true) :
    update fs m (.key k) =
      some ({ m with isSlideshow := false, statusMsg := "Slideshow Stopped" }, []) := by
  have hk2 : (k == "ctrl+c") = false := beq_eq_false_iff_ne.mpr hk
  simp [update, updateKey, hk2, hs]

/-- C3 witness: a `j` during a running slideshow at the concrete session. -/
theorem c3_slideshow_swallow_witness :
    ("j" : String) ≠ "ctrl+c" ∧ mSlide.isSlideshow = true ∧
      update fs0 mSlide (.key "j") =
        some ({ mSlide with isSlideshow := false, statusMsg := "Slideshow Stopped" }, []) :=
  ⟨by decide, rfl, c3_slideshow_swallow fs0 mSlide "j" (by decide) rfl⟩

/-! ## C4 — catalog ordering -/

/-- C4 counterexample: on a listing with two images of equal size, the
order `[b.png, a.png]` satisfies everything `sort.Slice` guarantees under
the size key (it is a permutation with no adjacent inversion), yet its tie
is not broken by name — so the claimed ordering, tie-break included, is
not a property of `getFiles`. -/
theorem c4_tiebreak_counterexample :
    getFilesOutput fsAB "pics" false "" false SortSize [itemB, itemA] ∧
      ¬ claimedOrderC4 SortSize [itemB, itemA] := by decide

/-- C4 (amended): every `getFiles` output has the synthetic `..` entry
first when present, and is non-increasing in size under the Size key,
non-increasing in mtime under the ModifiedTime key, and non-decreasing in
case-insensitive name under the Name key; the order of ties under Size
and ModifiedTime is left unspecified by the unstable sort. -/
theorem c4_sort_order (fs : Fs) (dir : String) (dirsOnly : Bool) (q : String) (sh : Bool)
    (sortMode : Nat) (out : List Item)
    (hout : getFilesOutput fs dir dirsOnly q sh sortMode out) :
    parentFirst out ∧ monotoneOrder sortMode out := by
  obtain ⟨-, hsorted⟩ := hout
  refine ⟨adjPairs_no_dd out hsorted, ?_⟩
  refine adjPairs_imp (fun a b hab => ?_) out hsorted
  have hfalse : lessItem sortMode b a = false := by simpa using hab
  exact lessItem_false_mono hfalse

/-- C4 witness: the amended ordering at a concrete name-sorted catalog. -/
theorem c4_sort_order_witness :
    getFilesOutput fsAB "pics" false "" false SortName [itemA, itemB] ∧
      (parentFirst [itemA, itemB] ∧ monotoneOrder SortName [itemA, itemB]) :=
  ⟨by decide, c4_sort_order fsAB "pics" false "" false SortName [itemA, itemB] (by decide)⟩

/-! ## C5 — listing failure -/

/-- C5 counterexample: when the directory listing fails, the empty list is
a valid (indeed the only) image-mode catalog, and it does not consist of
one synthetic error entry — the final iteration discards the `os.ReadDir`
error without creating any entry. -/
theorem c5_error_entry_counterexample :
    getFilesOutput fsFail "/gone" false "" false SortName [] ∧
      ([] : List Item).length ≠ 1 := by decide

/-- C5 (amended): a listing failure is swallowed — the catalog builder
returns the empty catalog (just the synthetic `..` entry in directory
mode) instead of propagating the error; nothing is fatal, but no
synthetic error entry is produced either. -/
theorem c5_fail_soft_empty (fs : Fs) (dir : String) (dirsOnly : Bool) (q : String) (sh : Bool)
    (sortMode : Nat) (out : List Item) (hfail : fs.readDir dir = none)
    (hout : getFilesOutput fs dir dirsOnly q sh sortMode out) :
    out = if dirsOnly then [ddItem] else [] := by
  obtain ⟨hperm, -⟩ := hout
  rw [hfail] at hperm
  simp only [Option.getD_none, filteredItems, List.filter_nil, List.map_nil,
    List.append_nil] at hperm
  cases dirsOnly
  · simpa using hperm.eq_nil
  · simpa using List.perm_singleton.mp hperm

/-- C5 witness: the amended statement at the failing filesystem in
directory mode. -/
theorem c5_fail_soft_empty_witness :
    fsFail.readDir "/gone" = none ∧
      getFilesOutput fsFail "/gone" true "" false SortName [ddItem] ∧
      [ddItem] = (if true then [ddItem] else []) :=
  ⟨rfl, by decide, c5_fail_soft_empty fsFail "/gone" true "" false SortName [ddItem] rfl (by decide)⟩

/-! ## C6 — the synthetic parent entry -/

/-- C6 counterexample: at the filesystem root `/`, the directory-mode
catalog still contains the synthetic `..` entry — the final iteration
prepends it unconditionally, with no root check. -/
theorem c6_root_counterexample :
    getFilesOutput fs0 "/" true "" false SortName [ddItem] ∧
      ddItem ∈ [ddItem] ∧ ddItem.fileName = ".." := by decide

/-- C6 (amended): for listings whose entries are not named `..` (as
`os.ReadDir` guarantees), a `getFiles` catalog contains a `..` entry
exactly when built in directory mode — independent of the directory,
the filesystem root included. -/
theorem c6_parent_iff_dirmode (fs : Fs) (dir : String) (dirsOnly : Bool) (q : String) (sh : Bool)
    (sortMode : Nat) (out : List Item)
    (hdd : ∀ e ∈ (fs.readDir dir).getD [], e.name ≠ "..")
    (hout : getFilesOutput fs dir dirsOnly q sh sortMode out) :
    (∃ it ∈ out, it.fileName = "..") ↔ dirsOnly = true := by
  obtain ⟨hperm, -⟩ := hout
  constructor
  · rintro ⟨it, hit, hname⟩
    rcases mem_filteredItems.mp (hperm.mem_iff.mp hit) with ⟨hd, -⟩ | ⟨e, he, -, rfl⟩
    · exact hd
    · simp only [entryToItem] at hname
      exact absurd hname (hdd e he)
  · intro hd
    refine ⟨ddItem, ?_, rfl⟩
    exact hperm.mem_iff.mpr (mem_filteredItems.mpr (Or.inl ⟨hd, rfl⟩))

/-- C6 witness: the amended statement at a concrete empty directory in
directory mode. -/
theorem c6_parent_iff_dirmode_witness :
    (∀ e ∈ (fs0.readDir "x").getD [], e.name ≠ "..") ∧
      getFilesOutput fs0 "x" true "" false SortName [ddItem] ∧
      ((∃ it ∈ [ddItem], it.fileName = "..") ↔ true = true) :=
  ⟨by decide, by decide,
   c6_parent_iff_dirmode fs0 "x" true "" false SortName [ddItem] (by decide) (by decide)⟩

/-! ## C8 — the substring filter -/

/-- C8: with a non-empty query, every entry of a `getFiles` catalog other
than the synthetic `..` entry contains the query in its name
case-insensitively; with an empty query the catalog is a permutation of
the pipeline that has no substring filter at all. -/
theorem c8_query_filter (fs : Fs) (dir : String) (dirsOnly : Bool) (q : String) (sh : Bool)
    (sortMode : Nat) (out : List Item)
    (hout : getFilesOutput fs dir dirsOnly q sh sortMode out) :
    (q ≠ "" → ∀ it ∈ out, it.fileName ≠ ".." →
        strContains (toLowerStr it.fileName) (toLowerStr q) = true) ∧
    (q = "" → out.Perm (filteredItemsNoQuery dirsOnly sh ((fs.readDir dir).getD []))) := by
  obtain ⟨hperm, -⟩ := hout
  constructor
  · intro hq it hit hne
    rcases mem_filteredItems.mp (hperm.mem_iff.mp hit) with ⟨-, rfl⟩ | ⟨e, -, hkeep, rfl⟩
    · exact absurd rfl hne
    · simp only [entryToItem] at hne ⊢
      unfold keepEntry at hkeep
      simp only [Bool.and_eq_true, Bool.or_eq_true] at hkeep
      rcases hkeep.1.2 with h0 | hc
      · exact absurd (by simpa using h0) hq
      · exact hc
  · intro hq
    subst hq
    rw [filteredItems_empty_query] at hperm
    exact hperm

/-- C8 witness: the query `a` on a two-image listing keeps exactly
`a.png`. -/
theorem c8_query_filter_witness :
    getFilesOutput fsAB "pics" false "a" false SortName [itemA] ∧
      (("a" : String) ≠ "" → ∀ it ∈ [itemA], it.fileName ≠ ".." →
        strContains (toLowerStr it.fileName) (toLowerStr "a") = true) ∧
      (("a" : String) = "" →
        ([itemA] : List Item).Perm
          (filteredItemsNoQuery false false ((fsAB.readDir "pics").getD []))) :=
  ⟨by decide, (c8_query_filter fsAB "pics" false "a" false SortName [itemA] (by decide)).1,
   (c8_query_filter fsAB "pics" false "a" false SortName [itemA] (by decide)).2⟩

/-! ## C9 — hidden-file monotonicity -/

/-- C9: for a fixed listing, query, mode and sort key, every entry of a
catalog built with hidden files off also appears in any catalog built
with hidden files on, and the entries only the latter has begin with a
dot. -/
theorem c9_hidden_monotone (fs : Fs) (dir : String) (dirsOnly : Bool) (q : String)
    (sortMode : Nat) (out1 out2 : List Item)
    (h1 : getFilesOutput fs dir dirsOnly q false sortMode out1)
    (h2 : getFilesOutput fs dir dirsOnly q true sortMode out2) :
    (∀ it ∈ out1, it ∈ out2) ∧
    (∀ it ∈ out2, it ∉ out1 → hasPrefixDot it.fileName = true) := by
  obtain ⟨hp1, -⟩ := h1
  obtain ⟨hp2, -⟩ := h2
  have key1 : ∀ it : Item, it ∈ filteredItems dirsOnly q false ((fs.readDir dir).getD []) →
      it ∈ filteredItems dirsOnly q true ((fs.readDir dir).getD []) := by
    intro it h
    rcases mem_filteredItems.mp h with ⟨hd, rfl⟩ | ⟨e, he, hkeep, rfl⟩
    · exact mem_filteredItems.mpr (Or.inl ⟨hd, rfl⟩)
    · refine mem_filteredItems.mpr (Or.inr ⟨e, he, ?_, rfl⟩)
      unfold keepEntry at hkeep ⊢
      simp only [Bool.and_eq_true] at hkeep ⊢
      exact ⟨⟨by simp, hkeep.1.2⟩, hkeep.2⟩
  have key2 : ∀ it : Item, it ∈ filteredItems dirsOnly q true ((fs.readDir dir).getD []) →
      hasPrefixDot it.fileName = false →
      it ∈ filteredItems dirsOnly q false ((fs.readDir dir).getD []) := by
    intro it h hdot
    rcases mem_filteredItems.mp h with ⟨hd, rfl⟩ | ⟨e, he, hkeep, rfl⟩
    · exact mem_filteredItems.mpr (Or.inl ⟨hd, rfl⟩)
    · refine mem_filteredItems.mpr (Or.inr ⟨e, he, ?_, rfl⟩)
      simp only [entryToItem] at hdot
      unfold keepEntry at hkeep ⊢
      simp only [Bool.and_eq_true] at hkeep ⊢
      exact ⟨⟨by simp [hdot], hkeep.1.2⟩, hkeep.2⟩
  constructor
  · intro it hit
    exact hp2.mem_iff.mpr (key1 it (hp1.mem_iff.mp hit))
  · intro it hit hnot
    cases hdot : hasPrefixDot it.fileName
    · exact absurd (hp1.mem_iff.mpr (key2 it (hp2.mem_iff.mp hit) hdot)) hnot
    · rfl

/-- C9 witness: turning hidden files on over a listing with `.h.png` only
adds that dot-entry. -/
theorem c9_hidden_monotone_witness :
    getFilesOutput fsBH "pics" false "" false SortName [itemB] ∧
      getFilesOutput fsBH "pics" false "" true SortName [itemH, itemB] ∧
      ((∀ it ∈ ([itemB] : List Item), it ∈ ([itemH, itemB] : List Item)) ∧
       (∀ it ∈ ([itemH, itemB] : List Item), it ∉ ([itemB] : List Item) →
         hasPrefixDot it.fileName = true)) :=
  ⟨by decide, by decide,
   c9_hidden_monotone fsBH "pics" false "" SortName [itemB] [itemH, itemB] (by decide) (by decide)⟩

/-! ## C7 — committing the browsed directory -/

/-- C7 counterexample: `esc` in `DirectoryBrowsing` returns to `Browsing`
but leaves `currentDir` at `/a` even though `dirBrowserPath` is `/b`, and
leaves the catalog untouched — it does not commit the browsed
directory. -/
theorem c7_esc_commit_counterexample :
    (update fs0 mDirB (.key "esc")).map (fun p => (p.1.state, p.1.currentDir, p.1.listItems)) =
        some (SState.browsing, "/a", [imgIt]) ∧
      mDirB.dirBrowserPath = "/b" ∧ ("/a" : String) ≠ "/b" := by decide

/-- C7 (amended): in `DirectoryBrowsing`, `d` commits — it returns to
`Browsing`, sets the working directory to the browsed directory and
reloads the image catalog from it — while `esc` only returns to
`Browsing`, leaving the working directory and the active catalog
unchanged. -/
theorem c7_commit_vs_cancel (fs : Fs) (m : Model)
    (hsl : m.isSlideshow = false) (hst : m.state = .dirBrowsing) :
    (∃ p, update fs m (.key "d") = some p ∧ p.2 = [] ∧ p.1.state = .browsing ∧
       p.1.currentDir = m.dirBrowserPath ∧
       p.1.listItems = getFilesList fs m.dirBrowserPath false m.searchQuery m.showHidden m.sortMode) ∧
    (∃ p, update fs m (.key "esc") = some p ∧ p.2 = [] ∧ p.1.state = .browsing ∧
       p.1.currentDir = m.currentDir ∧ p.1.listItems = m.listItems) := by
  have hd : update fs m (.key "d") =
      some (reloadImageList fs { m with currentDir := m.dirBrowserPath, state := .browsing }, []) := by
    simp [update, updateKey, updateKeyDirBrowsing, hsl, hst, listWidgetUpdate]
  have he : update fs m (.key "esc") = some ({ m with state := .browsing }, []) := by
    simp [update, updateKey, updateKeyDirBrowsing, hsl, hst, listWidgetUpdate]
  exact ⟨⟨_, hd, rfl, rfl, rfl, rfl⟩, ⟨_, he, rfl, rfl, rfl, rfl⟩⟩

/-- C7 witness: the commit clause of the amended statement at the concrete
session. -/
theorem c7_commit_vs_cancel_witness :
    mDirB.isSlideshow = false ∧ mDirB.state = SState.dirBrowsing ∧
      (∃ p, update fs0 mDirB (.key "d") = some p ∧ p.2 = [] ∧ p.1.state = .browsing ∧
        p.1.currentDir = mDirB.dirBrowserPath ∧
        p.1.listItems = getFilesList fs0 mDirB.dirBrowserPath false mDirB.searchQuery
          mDirB.showHidden mDirB.sortMode) :=
  ⟨rfl, rfl, (c7_commit_vs_cancel fs0 mDirB rfl rfl).1⟩

/-! ## C10 — totality of the session step -/

/-- C10: whenever the cursor is in range of the catalog (in particular the
catalog is non-empty — the invariant the list widget maintains), the
session step is total for every message, the three unguarded
selected-item dereferences included; and with an empty catalog the
unguarded render-mode digit handler does reach its failure branch. -/
theorem c10_step_total (fs : Fs) (m : Model) :
    (∀ msg : Msg, m.listIndex < m.listItems.length → (update fs m msg).isSome = true) ∧
    (m.listItems = [] → m.isSlideshow = false → m.state = .viewingImage →
      update fs m (.key "1") = none) := by
  constructor
  · intro msg h
    have hsel : selectedItem m = some (m.listItems.get ⟨m.listIndex, h⟩) := by
      simp [selectedItem, List.get?_eq_get h]
    cases msg with
    | rendered s => rfl
    | tick => rfl
    | key k =>
      simp only [update]
      unfold updateKey
      by_cases hc : (k == "ctrl+c") = true
      · rw [if_pos hc]; rfl
      · rw [if_neg hc]
        by_cases hsl2 : m.isSlideshow = true
        · rw [if_pos hsl2]; rfl
        · rw [if_neg hsl2]
          cases hstate : m.state <;>
            first
              | rfl
              | exact updateKeyViewing_isSome hsel k
              | exact updateKeyRenaming_isSome fs hsel k
              | exact updateKeyConfirmDelete_isSome fs hsel k
  · intro he hs hst
    simp [update, updateKey, updateKeyViewing, hst, hs, selectedItem, he]

/-- C10 witness: a step at the concrete one-image viewer session. -/
theorem c10_step_total_witness :
    mView.listIndex < mView.listItems.length ∧ (update fs0 mView (.key "enter")).isSome = true :=
  ⟨by decide, (c10_step_total fs0 mView).1 (.key "enter") (by decide)⟩

end Phogo
